import Mathlib

/-!
Verification of the blog REST API content layer.

The repository is a small read-only blog API: an Express dispatcher
(routes/index.js) forwards four GET endpoints to the accessor functions in
routes/api.js, which query a MongoDB collection of posts through Mongoose
and deliver a result envelope to a callback.

This file embeds the accessor layer shallowly:

* `Post` mirrors the Mongoose `BlogPostSchema` (models/post.js).
* `Store` models the backend state as seen through a single query: the
  list of documents, plus a flag for a storage failure (the `error`
  argument that Mongoose passes to the `exec` callback).
* Mongo query primitives are modelled as list operations: the filter
  `{dateTimestamp: {$lte: now}}` as `List.filter`, `{tags: tag}` as array
  membership, `.sort({dateTimestamp: -1})` as the stable sort
  `List.insertionSort` on the key `dateTimestamp` descending, `.limit(5)`
  as `List.take 5`, the Mongoose field-selection string as the projection
  `project`, and `findOne` as `List.find?`.
* `moment().unix()` is passed in as the parameter `now`; the showdown
  Markdown converter is passed in as an abstract function `makeHtml`.

Each accessor returns the envelope it would hand to its callback.
-/

namespace BlogApi

/-- A stored blog post document, following `BlogPostSchema` in
models/post.js: identifier, title, URL slug, UNIX publish timestamp,
tags array, thumbnail URL, raw Markdown content and the two SEO strings. -/
structure Post where
  id : String
  title : String
  urlTitle : String
  dateTimestamp : Nat
  tags : List String
  thumbnailImageUrl : String
  markdownContent : String
  seoTitleTag : String
  seoMetaDescription : String
deriving Repr, DecidableEq

/-- The shape returned by the three list queries: Mongoose is given the
field-selection string "title urlTitle dateTimestamp tags
thumbnailImageUrl", so only those five schema keys come back. -/
structure PostSummary where
  title : String
  urlTitle : String
  dateTimestamp : Nat
  tags : List String
  thumbnailImageUrl : String
deriving Repr, DecidableEq

/-- The Mongoose projection: keep exactly the five selected fields. -/
def project (p : Post) : PostSummary :=
  { title := p.title
    urlTitle := p.urlTitle
    dateTimestamp := p.dateTimestamp
    tags := p.tags
    thumbnailImageUrl := p.thumbnailImageUrl }

/-- Backend state for one query: the documents of the `posts` collection
and whether the query fails (the `error` branch of the `exec` callback). -/
structure Store where
  posts : List Post
  storageFailure : Bool
deriving Repr, DecidableEq

/-- Envelope delivered to the callback of the three list operations.
`getDataError` is the object `{getDataError: true}`; `getdataError`
(lowercase d) is the object literally written in the error branch of
`getFiveNewestPosts` in routes/api.js; `success ps` is
`{success: true, posts: ps}`. -/
inductive ListEnvelope where
  | getDataError : ListEnvelope
  | getdataError : ListEnvelope
  | success (posts : List PostSummary) : ListEnvelope
deriving Repr, DecidableEq

/-- Envelope delivered to the callback of `getBlogPostByUrlTitle`. -/
inductive PostEnvelope where
  | getDataError : PostEnvelope
  | notFoundError : PostEnvelope
  | success (post : Post) : PostEnvelope
deriving Repr, DecidableEq

/-- The sort key `{dateTimestamp: -1}`: `a` may precede `b` when the
timestamp of `b` is at most the timestamp of `a` (newest first). -/
def dateDesc (a b : Post) : Prop := b.dateTimestamp ≤ a.dateTimestamp

instance : DecidableRel dateDesc := fun a b =>
  inferInstanceAs (Decidable (b.dateTimestamp ≤ a.dateTimestamp))

instance : IsTotal Post dateDesc :=
  ⟨fun a b => Nat.le_total b.dateTimestamp a.dateTimestamp⟩

instance : IsTrans Post dateDesc :=
  ⟨fun _ _ _ h1 h2 => le_trans h2 h1⟩

/-- `getAllBlogPosts` (routes/api.js): find the posts with
`dateTimestamp <= now`, project to the five selected fields, sort newest
first; on a query error the callback gets `{getDataError: true}`,
otherwise `{success: true, posts}`. -/
def getAllBlogPosts (store : Store) (now : Nat) : ListEnvelope :=
  if store.storageFailure then ListEnvelope.getDataError
  else ListEnvelope.success
    (((store.posts.filter fun p => p.dateTimestamp ≤ now).insertionSort
      dateDesc).map project)

/-- `getBlogPostsByTag` (routes/api.js): same query with the extra filter
`{tags: tag}`, which matches the documents whose tags array contains
`tag`. -/
def getBlogPostsByTag (store : Store) (now : Nat) (tag : String) :
    ListEnvelope :=
  if store.storageFailure then ListEnvelope.getDataError
  else ListEnvelope.success
    (((store.posts.filter fun p =>
        p.tags.contains tag && decide (p.dateTimestamp ≤ now)).insertionSort
      dateDesc).map project)

/-- `getFiveNewestPosts` (routes/api.js): the `getAllBlogPosts` query with
`.limit(5)`; note the error branch writes `{getdataError: true}`
with a lowercase d, exactly as in the source. -/
def getFiveNewestPosts (store : Store) (now : Nat) : ListEnvelope :=
  if store.storageFailure then ListEnvelope.getdataError
  else ListEnvelope.success
    ((((store.posts.filter fun p => p.dateTimestamp ≤ now).insertionSort
      dateDesc).take 5).map project)

/-- `getBlogPostByUrlTitle` (routes/api.js): `findOne` on the `urlTitle`
key, no timestamp filter; error → `{getDataError: true}`, no match →
`{notFoundError: true}`, match → the document with its
`markdownContent` replaced by the showdown rendering `makeHtml`. -/
def getBlogPostByUrlTitle (makeHtml : String → String) (store : Store)
    (urlTitle : String) : PostEnvelope :=
  if store.storageFailure then PostEnvelope.getDataError
  else
    match store.posts.find? fun p => p.urlTitle == urlTitle with
    | none => PostEnvelope.notFoundError
    | some post => PostEnvelope.success
        { post with markdownContent := makeHtml post.markdownContent }

/-- A sample post used by concrete witnesses. -/
def samplePost : Post :=
  { id := "p1"
    title := "Hello"
    urlTitle := "hello"
    dateTimestamp := 100
    tags := ["javascript", "css"]
    thumbnailImageUrl := "/assets/hello.png"
    markdownContent := "# Hi"
    seoTitleTag := "Hello title"
    seoMetaDescription := "Hello description" }

/-- A second sample post, future-dated relative to `now = 150`. -/
def futurePost : Post :=
  { id := "p2"
    title := "Later"
    urlTitle := "later"
    dateTimestamp := 10000
    tags := ["css"]
    thumbnailImageUrl := "/assets/later.png"
    markdownContent := "## Soon"
    seoTitleTag := "Later title"
    seoMetaDescription := "Later description" }

/-- A sample store holding both posts, with the backend healthy. -/
def sampleStore : Store :=
  { posts := [samplePost, futurePost], storageFailure := false }

/-- A store whose backend query fails. -/
def failingStore : Store :=
  { posts := [samplePost], storageFailure := true }

/-- Inserting an element that dominates the whole list puts it in front. -/
theorem orderedInsert_eq_cons (p : Post) (l : List Post)
    (h : ∀ q ∈ l, dateDesc p q) :
    l.orderedInsert dateDesc p = p :: l := by
  cases l with
  | nil => rfl
  | cons q qs =>
      simp only [List.orderedInsert]
      rw [if_pos (h q (List.mem_cons_self q qs))]

/-- Filtering commutes with ordered insertion into a sorted list: the
inserted element survives iff it passes the filter, and lands at the
same place. -/
theorem filter_orderedInsert (f : Post → Bool) (p : Post) :
    ∀ l : List Post, l.Sorted dateDesc →
      (l.orderedInsert dateDesc p).filter f =
        if f p then (l.filter f).orderedInsert dateDesc p else l.filter f
  | [], _ => by
      by_cases hp : f p <;> simp [List.orderedInsert, List.filter, hp]
  | q :: qs, hs => by
      have hqs : qs.Sorted dateDesc := hs.of_cons
      have hq : ∀ x ∈ qs, dateDesc q x := List.rel_of_sorted_cons hs
      by_cases hpq : dateDesc p q
      · rw [List.orderedInsert, if_pos hpq]
        by_cases hp : f p
        · have hall : ∀ x ∈ (q :: qs).filter f, dateDesc p x := by
            intro x hx
            rcases List.mem_filter.mp hx with ⟨hx, _⟩
            rcases List.mem_cons.mp hx with rfl | hx
            · exact hpq
            · exact Trans.trans hpq (hq x hx)
          rw [if_pos hp, orderedInsert_eq_cons p _ hall]
          simp [List.filter, hp]
        · rw [if_neg hp]
          simp [List.filter, hp]
      · rw [List.orderedInsert, if_neg hpq]
        have IH := filter_orderedInsert f p qs hqs
        by_cases hp : f p
        · rw [if_pos hp] at IH ⊢
          by_cases hfq : f q
          · rw [List.filter_cons_of_pos hfq, List.filter_cons_of_pos hfq, IH,
              List.orderedInsert, if_neg hpq]
          · rw [List.filter_cons_of_neg hfq, List.filter_cons_of_neg hfq, IH]
        · rw [if_neg hp] at IH ⊢
          by_cases hfq : f q
          · rw [List.filter_cons_of_pos hfq, List.filter_cons_of_pos hfq, IH]
          · rw [List.filter_cons_of_neg hfq, List.filter_cons_of_neg hfq, IH]

/-- Filtering commutes with the stable sort on the timestamp key. -/
theorem insertionSort_filter (f : Post → Bool) :
    ∀ l : List Post,
      (l.filter f).insertionSort dateDesc =
        (l.insertionSort dateDesc).filter f
  | [] => rfl
  | p :: ps => by
      rw [List.insertionSort,
        filter_orderedInsert f p _ (List.sorted_insertionSort dateDesc ps)]
      by_cases hp : f p
      · rw [if_pos hp, ← insertionSort_filter f ps,
          List.filter_cons_of_pos hp, List.insertionSort]
      · rw [if_neg hp, ← insertionSort_filter f ps,
          List.filter_cons_of_neg hp]

/-- The projection keeps the timestamp, so a sorted post list projects to
a summary list sorted the same way. -/
theorem sorted_map_project {l : List Post} (hs : l.Sorted dateDesc) :
    (l.map project).Pairwise
      (fun a b : PostSummary => b.dateTimestamp ≤ a.dateTimestamp) :=
  hs.map project (fun _ _ h => h)

/-- Members of a projected, sorted, filtered list come from documents of
the underlying list that pass the filter. -/
theorem mem_result_elim {f : Post → Bool} {posts : List Post}
    {s : PostSummary}
    (hs : s ∈ ((posts.filter f).insertionSort dateDesc).map project) :
    ∃ q ∈ posts, f q = true ∧ s = project q := by
  rcases List.mem_map.mp hs with ⟨q, hq, rfl⟩
  rw [List.mem_insertionSort, List.mem_filter] at hq
  exact ⟨q, hq.1, hq.2, rfl⟩

/-- Inversion for a successful `getAllBlogPosts` call: the backend did not
fail and the list is exactly the projected, sorted, published filter. -/
theorem getAllBlogPosts_success_inv {store : Store} {now : Nat}
    {l : List PostSummary}
    (h : getAllBlogPosts store now = ListEnvelope.success l) :
    store.storageFailure = false ∧
    l = ((store.posts.filter fun p => p.dateTimestamp ≤ now).insertionSort
      dateDesc).map project := by
  by_cases hF : store.storageFailure = true
  · rw [getAllBlogPosts, if_pos hF] at h
    simp at h
  · rw [getAllBlogPosts, if_neg hF] at h
    rw [ListEnvelope.success.injEq] at h
    exact ⟨by simpa using hF, h.symm⟩

/-- Inversion for a successful `getBlogPostsByTag` call. -/
theorem getBlogPostsByTag_success_inv {store : Store} {now : Nat}
    {tag : String} {l : List PostSummary}
    (h : getBlogPostsByTag store now tag = ListEnvelope.success l) :
    store.storageFailure = false ∧
    l = ((store.posts.filter fun p =>
        p.tags.contains tag && decide (p.dateTimestamp ≤ now)).insertionSort
      dateDesc).map project := by
  by_cases hF : store.storageFailure = true
  · rw [getBlogPostsByTag, if_pos hF] at h
    simp at h
  · rw [getBlogPostsByTag, if_neg hF] at h
    rw [ListEnvelope.success.injEq] at h
    exact ⟨by simpa using hF, h.symm⟩

/-- Inversion for a successful `getFiveNewestPosts` call. -/
theorem getFiveNewestPosts_success_inv {store : Store} {now : Nat}
    {l : List PostSummary}
    (h : getFiveNewestPosts store now = ListEnvelope.success l) :
    store.storageFailure = false ∧
    l = (((store.posts.filter fun p => p.dateTimestamp ≤ now).insertionSort
      dateDesc).take 5).map project := by
  by_cases hF : store.storageFailure = true
  · rw [getFiveNewestPosts, if_pos hF] at h
    simp at h
  · rw [getFiveNewestPosts, if_neg hF] at h
    rw [ListEnvelope.success.injEq] at h
    exact ⟨by simpa using hF, h.symm⟩

/-- Inversion for a successful `getBlogPostByUrlTitle` call: the backend
did not fail, `findOne` found a document, and the envelope carries that
document with the converted Markdown. -/
theorem getBlogPostByUrlTitle_success_inv {makeHtml : String → String}
    {store : Store} {u : String} {q : Post}
    (h : getBlogPostByUrlTitle makeHtml store u = PostEnvelope.success q) :
    store.storageFailure = false ∧
    ∃ p, store.posts.find? (fun r => r.urlTitle == u) = some p ∧
      q = { p with markdownContent := makeHtml p.markdownContent } := by
  by_cases hF : store.storageFailure = true
  · rw [getBlogPostByUrlTitle, if_pos hF] at h
    simp at h
  · rw [getBlogPostByUrlTitle, if_neg hF] at h
    refine ⟨by simpa using hF, ?_⟩
    cases hfind : store.posts.find? fun r => r.urlTitle == u with
    | none =>
        rw [hfind] at h
        simp at h
    | some p =>
        rw [hfind] at h
        rw [PostEnvelope.success.injEq] at h
        exact ⟨p, rfl, h.symm⟩

/-- C1: a post dated strictly after the query time appears in none of the
result lists of getAllBlogPosts, getBlogPostsByTag or getFiveNewestPosts:
each of the three list queries filters to dateTimestamp at most now. -/
theorem future_post_never_listed (store : Store) (now : Nat) (tag : String)
    (p : Post) (hfuture : now < p.dateTimestamp) :
    (∀ l, getAllBlogPosts store now = ListEnvelope.success l →
      project p ∉ l) ∧
    (∀ l, getBlogPostsByTag store now tag = ListEnvelope.success l →
      project p ∉ l) ∧
    (∀ l, getFiveNewestPosts store now = ListEnvelope.success l →
      project p ∉ l) := by
  have key : ∀ q : Post, project p = project q →
      q.dateTimestamp ≤ now → False := by
    intro q hpq hle
    have hd : p.dateTimestamp = q.dateTimestamp :=
      congrArg PostSummary.dateTimestamp hpq
    omega
  refine ⟨?_, ?_, ?_⟩ <;> intro l hl hmem
  · obtain ⟨-, rfl⟩ := getAllBlogPosts_success_inv hl
    obtain ⟨q, -, hfq, heq⟩ := mem_result_elim hmem
    exact key q heq (of_decide_eq_true hfq)
  · obtain ⟨-, rfl⟩ := getBlogPostsByTag_success_inv hl
    obtain ⟨q, -, hfq, heq⟩ := mem_result_elim hmem
    exact key q heq (of_decide_eq_true ((Bool.and_eq_true _ _).mp hfq).2)
  · obtain ⟨-, rfl⟩ := getFiveNewestPosts_success_inv hl
    rw [List.map_take] at hmem
    obtain ⟨q, -, hfq, heq⟩ := mem_result_elim (List.mem_of_mem_take hmem)
    exact key q heq (of_decide_eq_true hfq)

/-- Witness for C1 at a concrete store: the future-dated sample post is
absent from the concrete getAllBlogPosts result at time 150. -/
theorem future_post_never_listed_witness :
    project futurePost ∉ [project samplePost] :=
  (future_post_never_listed sampleStore 150 "css" futurePost
    (by decide)).1 [project samplePost] (by decide)

/-- C2: getBlogPostByUrlTitle matches on the urlTitle key only, with no
dateTimestamp filter, so a future-dated post whose slug matches is still
delivered as a success envelope. -/
theorem url_title_ignores_publish_gate (makeHtml : String → String)
    (store : Store) (u : String) (p : Post) (now : Nat)
    (hF : store.storageFailure = false)
    (hfind : store.posts.find? (fun r => r.urlTitle == u) = some p)
    (hfuture : now < p.dateTimestamp) :
    getBlogPostByUrlTitle makeHtml store u = PostEnvelope.success
      { p with markdownContent := makeHtml p.markdownContent } := by
  rw [getBlogPostByUrlTitle, if_neg (by simp [hF]), hfind]

/-- Witness for C2: at time 150 the sample store still returns the post
dated 10000 through its slug. -/
theorem url_title_ignores_publish_gate_witness :
    getBlogPostByUrlTitle (fun s => String.append "<p>" s) sampleStore
      "later" = PostEnvelope.success
      { futurePost with
          markdownContent := String.append "<p>" "## Soon" } :=
  url_title_ignores_publish_gate _ sampleStore "later" futurePost 150
    (by decide) (by decide) (by decide)

/-- C3: on a storage failure all four operations deliver an error
envelope without throwing, but getFiveNewestPosts writes the flag as
getdataError with a lowercase d (routes/api.js line 69), not the
getDataError flag that the other three operations and the spec use. -/
theorem storage_failure_flag_typo :
    getAllBlogPosts failingStore 0 = ListEnvelope.getDataError ∧
    getBlogPostsByTag failingStore 0 "css" = ListEnvelope.getDataError ∧
    getBlogPostByUrlTitle (fun s => s) failingStore "hello" =
      PostEnvelope.getDataError ∧
    getFiveNewestPosts failingStore 0 = ListEnvelope.getdataError ∧
    getFiveNewestPosts failingStore 0 ≠ ListEnvelope.getDataError :=
  ⟨rfl, rfl, rfl, rfl, by decide⟩

/-- C4: a successful getFiveNewestPosts list has at most five entries and
is an initial segment of the successful getAllBlogPosts list for the same
store and query time: the query only adds .limit(5) to the same filter
and sort. -/
theorem five_newest_is_short_front (store : Store) (now : Nat)
    (l5 l : List PostSummary)
    (h5 : getFiveNewestPosts store now = ListEnvelope.success l5)
    (hall : getAllBlogPosts store now = ListEnvelope.success l) :
    l5.length ≤ 5 ∧ ∃ t, l5 ++ t = l := by
  obtain ⟨-, rfl⟩ := getFiveNewestPosts_success_inv h5
  obtain ⟨-, rfl⟩ := getAllBlogPosts_success_inv hall
  constructor
  · rw [List.length_map]
    exact List.length_take_le 5 _
  · exact ⟨(((store.posts.filter fun p =>
        p.dateTimestamp ≤ now).insertionSort dateDesc).drop 5).map project,
      by rw [← List.map_append, List.take_append_drop]⟩

/-- Witness for C4 on the sample store at time 20000. -/
theorem five_newest_is_short_front_witness :
    ([project futurePost, project samplePost] :
      List PostSummary).length ≤ 5 ∧
    ∃ t, [project futurePost, project samplePost] ++ t =
      [project futurePost, project samplePost] :=
  five_newest_is_short_front sampleStore 20000
    [project futurePost, project samplePost]
    [project futurePost, project samplePost] (by decide) (by decide)

/-- C5: the successful getBlogPostsByTag list is exactly the successful
getAllBlogPosts list filtered to the summaries whose tags contain the
requested tag, and in particular each of its members occurs in the
getAllBlogPosts list. -/
theorem by_tag_is_filtered_all (store : Store) (now : Nat) (tag : String)
    (lt l : List PostSummary)
    (ht : getBlogPostsByTag store now tag = ListEnvelope.success lt)
    (hall : getAllBlogPosts store now = ListEnvelope.success l) :
    lt = l.filter (fun s => s.tags.contains tag) ∧ ∀ s ∈ lt, s ∈ l := by
  obtain ⟨-, rfl⟩ := getBlogPostsByTag_success_inv ht
  obtain ⟨-, rfl⟩ := getAllBlogPosts_success_inv hall
  have hmain :
      ((store.posts.filter fun p =>
        p.tags.contains tag &&
          decide (p.dateTimestamp ≤ now)).insertionSort dateDesc).map
        project =
      (((store.posts.filter fun p =>
        p.dateTimestamp ≤ now).insertionSort dateDesc).map project).filter
        (fun s => s.tags.contains tag) := by
    rw [List.filter_map, ← insertionSort_filter, List.filter_filter]
    rfl
  refine ⟨hmain, ?_⟩
  intro s hs
  rw [hmain] at hs
  exact List.mem_of_mem_filter hs

/-- Witness for C5 on the sample store at time 20000 with tag css. -/
theorem by_tag_is_filtered_all_witness :
    ([project futurePost, project samplePost] : List PostSummary) =
      ([project futurePost, project samplePost] :
        List PostSummary).filter (fun s => s.tags.contains "css") ∧
    ∀ s ∈ ([project futurePost, project samplePost] : List PostSummary),
      s ∈ ([project futurePost, project samplePost] :
        List PostSummary) :=
  by_tag_is_filtered_all sampleStore 20000 "css"
    [project futurePost, project samplePost]
    [project futurePost, project samplePost] (by decide) (by decide)

/-- C6: getBlogPostByUrlTitle always lands in exactly one of three cases:
storage failure, slug not found, or success carrying the found document
with its markdownContent replaced by the HTML rendering. -/
theorem url_title_trichotomy (makeHtml : String → String) (store : Store)
    (u : String) :
    (store.storageFailure = true ∧
      getBlogPostByUrlTitle makeHtml store u =
        PostEnvelope.getDataError) ∨
    (store.storageFailure = false ∧
      store.posts.find? (fun r => r.urlTitle == u) = none ∧
      getBlogPostByUrlTitle makeHtml store u =
        PostEnvelope.notFoundError) ∨
    (∃ p, store.storageFailure = false ∧
      store.posts.find? (fun r => r.urlTitle == u) = some p ∧
      getBlogPostByUrlTitle makeHtml store u = PostEnvelope.success
        { p with markdownContent := makeHtml p.markdownContent }) := by
  by_cases hF : store.storageFailure = true
  · exact Or.inl ⟨hF, by rw [getBlogPostByUrlTitle, if_pos hF]⟩
  · have hF2 : store.storageFailure = false := by simpa using hF
    cases hfind : store.posts.find? fun r => r.urlTitle == u with
    | none =>
        exact Or.inr (Or.inl ⟨hF2, rfl,
          by rw [getBlogPostByUrlTitle, if_neg hF, hfind]⟩)
    | some p =>
        exact Or.inr (Or.inr ⟨p, hF2, rfl,
          by rw [getBlogPostByUrlTitle, if_neg hF, hfind]⟩)

/-- C7: every successful list result of the three list operations is
ordered by dateTimestamp descending (newest first). -/
theorem results_sorted_desc (store : Store) (now : Nat) (tag : String) :
    (∀ l, getAllBlogPosts store now = ListEnvelope.success l →
      l.Pairwise (fun a b => b.dateTimestamp ≤ a.dateTimestamp)) ∧
    (∀ l, getBlogPostsByTag store now tag = ListEnvelope.success l →
      l.Pairwise (fun a b => b.dateTimestamp ≤ a.dateTimestamp)) ∧
    (∀ l, getFiveNewestPosts store now = ListEnvelope.success l →
      l.Pairwise (fun a b => b.dateTimestamp ≤ a.dateTimestamp)) := by
  refine ⟨?_, ?_, ?_⟩ <;> intro l hl
  · obtain ⟨-, rfl⟩ := getAllBlogPosts_success_inv hl
    exact sorted_map_project (List.sorted_insertionSort dateDesc _)
  · obtain ⟨-, rfl⟩ := getBlogPostsByTag_success_inv hl
    exact sorted_map_project (List.sorted_insertionSort dateDesc _)
  · obtain ⟨-, rfl⟩ := getFiveNewestPosts_success_inv hl
    rw [List.map_take]
    exact List.Pairwise.sublist (List.take_sublist 5 _)
      (sorted_map_project (List.sorted_insertionSort dateDesc _))

/-- Witness for C7: the concrete getAllBlogPosts result at time 20000 is
sorted newest first. -/
theorem results_sorted_desc_witness :
    ([project futurePost, project samplePost] :
      List PostSummary).Pairwise
      (fun a b => b.dateTimestamp ≤ a.dateTimestamp) :=
  (results_sorted_desc sampleStore 20000 "css").1
    [project futurePost, project samplePost] (by decide)

/-- C8: every entry of a successful list result is the five-field
projection of a stored document: a PostSummary carries only title,
urlTitle, dateTimestamp, tags and thumbnailImageUrl, so markdownContent,
seoTitleTag and seoMetaDescription never reach a list result. -/
theorem list_results_project_five_fields (store : Store) (now : Nat)
    (tag : String) :
    (∀ l, getAllBlogPosts store now = ListEnvelope.success l →
      ∀ s ∈ l, ∃ p ∈ store.posts, s = project p) ∧
    (∀ l, getBlogPostsByTag store now tag = ListEnvelope.success l →
      ∀ s ∈ l, ∃ p ∈ store.posts, s = project p) ∧
    (∀ l, getFiveNewestPosts store now = ListEnvelope.success l →
      ∀ s ∈ l, ∃ p ∈ store.posts, s = project p) := by
  refine ⟨?_, ?_, ?_⟩ <;> intro l hl s hs
  · obtain ⟨-, rfl⟩ := getAllBlogPosts_success_inv hl
    obtain ⟨q, hq, -, heq⟩ := mem_result_elim hs
    exact ⟨q, hq, heq⟩
  · obtain ⟨-, rfl⟩ := getBlogPostsByTag_success_inv hl
    obtain ⟨q, hq, -, heq⟩ := mem_result_elim hs
    exact ⟨q, hq, heq⟩
  · obtain ⟨-, rfl⟩ := getFiveNewestPosts_success_inv hl
    rw [List.map_take] at hs
    obtain ⟨q, hq, -, heq⟩ := mem_result_elim (List.mem_of_mem_take hs)
    exact ⟨q, hq, heq⟩

/-- Witness for C8 on the concrete getAllBlogPosts result at time 150. -/
theorem list_results_project_five_fields_witness :
    ∃ p ∈ sampleStore.posts, project samplePost = project p :=
  (list_results_project_five_fields sampleStore 150 "css").1
    [project samplePost] (by decide) (project samplePost) (by decide)

/-- C9: a success envelope of getBlogPostByUrlTitle carries the found
document with every field except markdownContent unchanged, and
markdownContent equal to the rendering of the stored Markdown. -/
theorem url_title_success_frame (makeHtml : String → String)
    (store : Store) (u : String) (q : Post)
    (h : getBlogPostByUrlTitle makeHtml store u =
      PostEnvelope.success q) :
    ∃ p, store.posts.find? (fun r => r.urlTitle == u) = some p ∧
      q.id = p.id ∧ q.title = p.title ∧ q.urlTitle = p.urlTitle ∧
      q.dateTimestamp = p.dateTimestamp ∧ q.tags = p.tags ∧
      q.thumbnailImageUrl = p.thumbnailImageUrl ∧
      q.seoTitleTag = p.seoTitleTag ∧
      q.seoMetaDescription = p.seoMetaDescription ∧
      q.markdownContent = makeHtml p.markdownContent := by
  obtain ⟨-, p, hfind, rfl⟩ := getBlogPostByUrlTitle_success_inv h
  exact ⟨p, hfind, rfl, rfl, rfl, rfl, rfl, rfl, rfl, rfl, rfl⟩

/-- Witness for C9: fetching the sample post with a doubling renderer. -/
theorem url_title_success_frame_witness :
    ∃ p, sampleStore.posts.find?
        (fun r => r.urlTitle == "hello") = some p ∧
      ({ samplePost with markdownContent := "# Hi# Hi" } : Post).id =
        p.id ∧
      ({ samplePost with markdownContent := "# Hi# Hi" } : Post).title =
        p.title ∧
      ({ samplePost with
          markdownContent := "# Hi# Hi" } : Post).urlTitle = p.urlTitle ∧
      ({ samplePost with
          markdownContent := "# Hi# Hi" } : Post).dateTimestamp =
        p.dateTimestamp ∧
      ({ samplePost with markdownContent := "# Hi# Hi" } : Post).tags =
        p.tags ∧
      ({ samplePost with
          markdownContent := "# Hi# Hi" } : Post).thumbnailImageUrl =
        p.thumbnailImageUrl ∧
      ({ samplePost with
          markdownContent := "# Hi# Hi" } : Post).seoTitleTag =
        p.seoTitleTag ∧
      ({ samplePost with
          markdownContent := "# Hi# Hi" } : Post).seoMetaDescription =
        p.seoMetaDescription ∧
      ({ samplePost with
          markdownContent := "# Hi# Hi" } : Post).markdownContent =
        (fun s => String.append s s) p.markdownContent :=
  url_title_success_frame (fun s => String.append s s) sampleStore
    "hello" { samplePost with markdownContent := "# Hi# Hi" } (by decide)

/-- C10: with a healthy backend, a list query that matches nothing still
delivers a success envelope with the empty list, never a notFoundError
and never an error flag. -/
theorem empty_match_gives_empty_success (store : Store) (now : Nat)
    (tag : String) (hF : store.storageFailure = false) :
    ((store.posts.filter fun p => p.dateTimestamp ≤ now) = [] →
      getAllBlogPosts store now = ListEnvelope.success [] ∧
      getFiveNewestPosts store now = ListEnvelope.success []) ∧
    ((store.posts.filter fun p =>
        p.tags.contains tag && decide (p.dateTimestamp ≤ now)) = [] →
      getBlogPostsByTag store now tag = ListEnvelope.success []) := by
  have hF2 : ¬ store.storageFailure = true := by simp [hF]
  constructor
  · intro he
    constructor
    · rw [getAllBlogPosts, if_neg hF2, he]
      rfl
    · rw [getFiveNewestPosts, if_neg hF2, he]
      rfl
  · intro he
    rw [getBlogPostsByTag, if_neg hF2, he]
    rfl

/-- Witness for C10: a store holding only a future-dated post matches no
list query at time 150 and every list operation succeeds with []. -/
theorem empty_match_gives_empty_success_witness :
    (getAllBlogPosts { posts := [futurePost], storageFailure := false }
        150 = ListEnvelope.success [] ∧
      getFiveNewestPosts
        { posts := [futurePost], storageFailure := false } 150 =
        ListEnvelope.success []) ∧
    getBlogPostsByTag { posts := [futurePost], storageFailure := false }
      150 "css" = ListEnvelope.success [] := by
  have h := empty_match_gives_empty_success
    { posts := [futurePost], storageFailure := false } 150 "css" rfl
  exact ⟨h.1 (by decide), h.2 (by decide)⟩

end BlogApi
